import Mathlib

/-!
# Verification development for the `ascii-cell` cellular-automaton engine

Shallow embedding of the TypeScript sources of the `ascii-cell` repository
(`src/simulation.ts` — the class-based `Simulation` with its `Grid`,
`divideRect` and `iterAwake` helpers —, `src/color.ts`, `src/font.tsx`,
`src/effect.ts`) together with proofs about the embedded definitions.

Modelling conventions:
* JavaScript numbers used as coordinates/sizes are modelled as `ℤ`
  (positions) and `ℕ` (widths, heights, counters); `Math.floor(x / k)` on
  integers is `Int.fdiv`.
* JavaScript numbers used as color channels are modelled as `Option ℚ`,
  where `none` plays the role of `NaN`; the arithmetic helpers `jsAdd`,
  `jsMul`, … propagate `none` exactly the way IEEE operations propagate
  `NaN`, and every comparison involving `none` is false, as in JS.
  `Math.pow` with fractional exponents has no exact rational counterpart,
  so the functions that use it take the power function as an explicit
  parameter; every theorem below is independent of that parameter.
* Strings handed to the font/color parsers are modelled as `List Char`
  (`String.data`); `String.prototype.split` with a one-character separator
  is `splitOnChar`.
-/

namespace AsciiCell

/-- `Rect` from `src/simulation.ts`: `{x, y, width, height}`.  Positions may
be negative; all constructions in the source use nonnegative sizes. -/
structure Rect where
  x : ℤ
  y : ℤ
  width : ℕ
  height : ℕ
  deriving DecidableEq, Repr

/-- Membership of a coordinate in a `Rect` (the bounds test used by
`Grid.get`/`Grid.set` after translating by the origin). -/
def Rect.mem (r : Rect) (x y : ℤ) : Prop :=
  r.x ≤ x ∧ x < r.x + r.width ∧ r.y ≤ y ∧ y < r.y + r.height

instance (r : Rect) (x y : ℤ) : Decidable (r.mem x y) := by
  unfold Rect.mem; infer_instance

/-- `Grid<T>` from `src/simulation.ts`: an origin-addressed rectangular
array.  `data` is the backing array in row-major order; the length
invariant is maintained by every constructor and by `set`. -/
structure Grid (T : Type) where
  left : ℤ
  top : ℤ
  width : ℕ
  height : ℕ
  data : List T
  hlen : data.length = width * height

/-- `getRect()` of `Grid`. -/
def Grid.rect {T : Type} (g : Grid T) : Rect :=
  { x := g.left, y := g.top, width := g.width, height := g.height }

/-- The in-bounds test of `Grid.get`/`Grid.set`, spelled on the fields. -/
def Grid.mem {T : Type} (g : Grid T) (x y : ℤ) : Prop :=
  g.left ≤ x ∧ x < g.left + g.width ∧ g.top ≤ y ∧ y < g.top + g.height

instance {T : Type} (g : Grid T) (x y : ℤ) : Decidable (g.mem x y) := by
  unfold Grid.mem; infer_instance

theorem Grid.rect_mem_iff {T : Type} (g : Grid T) (x y : ℤ) :
    g.rect.mem x y ↔ g.mem x y := Iff.rfl

/-- The `Grid` constructor in its generator form
(`fill : (x, y) => T`): cell `i` of the backing array receives
`fill(i % width + rect.x, floor(i / width) + rect.y)`. -/
def Grid.ofFn {T : Type} (rect : Rect) (fill : ℤ → ℤ → T) : Grid T :=
  { left := rect.x, top := rect.y, width := rect.width, height := rect.height,
    data := (List.range (rect.width * rect.height)).map fun i =>
      fill ((i % rect.width : ℕ) + rect.x) ((i / rect.width : ℕ) + rect.y),
    hlen := by simp }

/-- The `Grid` constructor in its constant-fill form
(`new Array(width * height).fill(fill)`). -/
def Grid.ofFill {T : Type} (rect : Rect) (v : T) : Grid T :=
  { left := rect.x, top := rect.y, width := rect.width, height := rect.height,
    data := List.replicate (rect.width * rect.height) v,
    hlen := by simp }

/-- `Grid.get` from the source: translate by the origin, return `null`
(here `none`) outside the current bounds, otherwise index the backing
array at `y * width + x`. -/
def Grid.get {T : Type} (g : Grid T) (x y : ℤ) : Option T :=
  let x := x - g.left
  let y := y - g.top
  if x < 0 ∨ y < 0 ∨ x ≥ g.width ∨ y ≥ g.height then none
  else g.data[(y * g.width + x).toNat]?

/-- The `Grid` constructor in its re-blit form: every cell of the new rect
is populated by `fill.get(x, y)`, falling back to `fillDefault` when the
old grid answers `null`.  The source accepts the fallback either as a
value or as a generator function; the value form is the constant function
`fun _ _ => v`. -/
def Grid.blit {T : Type} (rect : Rect) (old : Grid T) (fillDefault : ℤ → ℤ → T) : Grid T :=
  Grid.ofFn rect fun x y =>
    match old.get x y with
    | some res => res
    | none => fillDefault x y

/-- `Grid.set` from the source: returns the (possibly unchanged) grid
together with the success boolean. -/
def Grid.set {T : Type} (g : Grid T) (x y : ℤ) (value : T) : Grid T × Bool :=
  let x' := x - g.left
  let y' := y - g.top
  if x' < 0 ∨ y' < 0 ∨ x' ≥ g.width ∨ y' ≥ g.height then (g, false)
  else
    ({ g with
       data := g.data.set (y' * g.width + x').toNat value,
       hlen := (g.data.length_set _ _).trans g.hlen }, true)

/-- `divideRect` from `src/simulation.ts`: origin divided with
`Math.floor`, sizes divided with `Math.ceil`. -/
def divideRect (rect : Rect) (d : ℕ) : Rect :=
  { x := rect.x.fdiv d, y := rect.y.fdiv d,
    width := (rect.width + (d - 1)) / d, height := (rect.height + (d - 1)) / d }

/-- `rectsEqual` from the source (the `null` case cannot arise here). -/
def rectsEqual (l r : Rect) : Bool :=
  l.x == r.x && l.y == r.y && l.width == r.width && l.height == r.height


/-! ## Color (`src/color.ts`)

JS numbers appearing as color channels are `JsNum := Option ℚ`, `none`
standing for `NaN`.  Arithmetic propagates `none`; comparisons involving
`none` are false, mirroring IEEE `NaN` semantics.  The two `Math.pow`
applications (exponent `2.4` and `1/2.4`) are passed in as parameters. -/

/-- A JS number that may be `NaN` (`none`). -/
abbrev JsNum := Option ℚ

/-- JS `+` on numbers (`NaN` propagates). -/
def jsAdd : JsNum → JsNum → JsNum
  | some x, some y => some (x + y)
  | _, _ => none

/-- JS `-` on numbers (`NaN` propagates). -/
def jsSub : JsNum → JsNum → JsNum
  | some x, some y => some (x - y)
  | _, _ => none

/-- JS `*` on numbers (`NaN` propagates). -/
def jsMul : JsNum → JsNum → JsNum
  | some x, some y => some (x * y)
  | _, _ => none

/-- JS `/` on numbers (`NaN` propagates; the sources only divide by the
nonzero constants 12.92, 1.055, 15 and 255, so the zero-divisor case —
±Infinity in JS — is mapped to `none` as well). -/
def jsDiv : JsNum → JsNum → JsNum
  | some x, some y => if y = 0 then none else some (x / y)
  | _, _ => none

/-- JS `>` (false whenever an operand is `NaN`). -/
def jsGT : JsNum → JsNum → Bool
  | some x, some y => decide (y < x)
  | _, _ => false

/-- JS `<` (false whenever an operand is `NaN`). -/
def jsLT : JsNum → JsNum → Bool
  | some x, some y => decide (x < y)
  | _, _ => false

/-- JS truthiness of a number: `0` and `NaN` are falsy. -/
def jsTruthy : JsNum → Bool
  | some q => decide (q ≠ 0)
  | none => false

/-- Digit run to a natural number, base 10. -/
def digitsToNat (l : List Char) : ℕ :=
  l.foldl (fun a c => a * 10 + (c.toNat - 48)) 0

/-- `Number.parseInt(s)` with the default radix, as used by the sources on
decimal inputs: trim leading whitespace, optional sign, longest digit
prefix; `NaN` (`none`) when no digit is found.  (The automatic `0x` hex
prefix of JS is not modelled; no call site can receive one.) -/
def parseIntDec (s : List Char) : Option ℤ :=
  let t := s.dropWhile (fun c => c = ' ' ∨ c = '\t' ∨ c = '\n' ∨ c = '\r')
  let signed : ℤ × List Char :=
    match t with
    | '-' :: r => (-1, r)
    | '+' :: r => (1, r)
    | _ => (1, t)
  let ds := signed.2.takeWhile Char.isDigit
  if ds.isEmpty then none else some (signed.1 * digitsToNat ds)

/-- `Number.parseInt(digit, 16)` on the single pre-validated lowercase hex
digits of the `#rgb`/`#rgba` paths. -/
def hexDigitVal (c : Char) : ℕ :=
  if c.isDigit then c.toNat - 48
  else if 'a' ≤ c ∧ c ≤ 'f' then c.toNat - 97 + 10
  else 0

/-- ASCII lowering, the fragment of `String.prototype.toLowerCase` the hex
parser relies on. -/
def jsToLower (c : Char) : Char :=
  if 'A' ≤ c ∧ c ≤ 'Z' then Char.ofNat (c.toNat + 32) else c

/-- The character test of the validation loop in `colorFromHex`:
the loop rejects unless `'0' ≤ c ≤ '9'` or `'a' ≤ c ≤ 'f'`. -/
def isHexChar (c : Char) : Bool :=
  (decide ('0' ≤ c) && decide (c ≤ '9')) || (decide ('a' ≤ c) && decide (c ≤ 'f'))

/-- `Color` as produced by `src/color.ts`: a 3- or 4-element array of JS
numbers; `a = none` is the 3-element form, `a = some α` the 4-element
form (where `α` itself may be `NaN`). -/
structure JsColor where
  r : JsNum
  g : JsNum
  b : JsNum
  a : Option JsNum
  deriving DecidableEq

/-- `srgbToLinear` from `src/color.ts`; `pow` stands for
`v => Math.pow(v, 2.4)`. -/
def srgbToLinear (pow : ℚ → ℚ) (value : JsNum) : JsNum :=
  if jsGT value (some 0.04045) then value.map (fun v => pow ((v + 0.055) / 1.055))
  else jsDiv value (some 12.92)

/-- `linearToSrgb` from `src/color.ts`; `pow` stands for
`v => Math.pow(v, 1/2.4)`. -/
def linearToSrgb (pow : ℚ → ℚ) (value : JsNum) : JsNum :=
  let v1 := if jsGT value (some 1) then some (1 : ℚ) else value
  let v2 := if jsLT v1 (some 0) then some (0 : ℚ) else v1
  if jsGT v2 (some 0.0031308) then v2.map (fun v => (1 + 0.055) * pow v - 0.055)
  else jsMul v2 (some 12.92)

/-- `colorFromHex` from `src/color.ts`.  Note that the 6- and 8-digit
paths call `Number.parseInt` *without* the radix 16 that the 3/4-digit
path passes, so a slice containing hex letters parses to `NaN`. -/
def colorFromHex (pow : ℚ → ℚ) (hex0 : List Char) : JsColor :=
  let hex := hex0.map jsToLower
  if !(hex.head? == some '#') then ⟨some 0, some 0, some 0, none⟩
  else if !(hex.drop 1).all isHexChar then ⟨some 0, some 0, some 0, none⟩
  else if hex.length == 4 || hex.length == 5 then
    let ds := (hex.drop 1).map fun d =>
      srgbToLinear pow (jsDiv (some (hexDigitVal d : ℚ)) (some 15))
    { r := ds.getD 0 none, g := ds.getD 1 none, b := ds.getD 2 none, a := ds[3]? }
  else if hex.length == 7 || hex.length == 9 then
    let r := srgbToLinear pow
      (jsDiv ((parseIntDec ((hex.drop 1).take 2)).map (Int.cast ·)) (some 255))
    let g := srgbToLinear pow
      (jsDiv ((parseIntDec ((hex.drop 3).take 2)).map (Int.cast ·)) (some 255))
    let b := srgbToLinear pow
      (jsDiv ((parseIntDec ((hex.drop 5).take 2)).map (Int.cast ·)) (some 255))
    if hex.length == 7 then ⟨r, g, b, none⟩
    else ⟨r, g, b, some (jsDiv ((parseIntDec ((hex.drop 7).take 2)).map (Int.cast ·)) (some 255))⟩
  else ⟨some 0, some 0, some 0, none⟩

/-- The display string built by `colorToString`, represented structurally:
`rgb r g b` stands for the template string `rgb(r, g, b)` (a channel value
of `none` prints as `NaN`), likewise `rgba`; the `black` fallback of the
source is unreachable for well-formed 3/4-channel colors. -/
inductive ColorStr where
  | rgb (r g b : JsNum)
  | rgba (r g b a : JsNum)
  | black
  deriving DecidableEq

/-- `colorToString` from `src/color.ts`; `pow` stands for
`v => Math.pow(v, 1/2.4)`.  (The alpha channel is also scaled by 255,
exactly as in the source.) -/
def colorToString (pow : ℚ → ℚ) (color : JsColor) : ColorStr :=
  let r := jsMul (linearToSrgb pow color.r) (some 255)
  let g := jsMul (linearToSrgb pow color.g) (some 255)
  let b := jsMul (linearToSrgb pow color.b) (some 255)
  match color.a with
  | none => ColorStr.rgb r g b
  | some a => ColorStr.rgba r g b (jsMul (linearToSrgb pow a) (some 255))

/-- `EPSILON` from `src/color.ts` (`0.00001`). -/
def EPSILON : ℚ := 1 / 100000

/-- `mixColor` from `src/color.ts`.  The guards transcribe
`left[3] ?? 1.0 <= EPSILON`, which by JS operator precedence is
`left[3] ?? (1.0 <= EPSILON)`, i.e. the boolean `false` when the alpha
slot is absent and the *truthiness of the alpha value* when present. -/
def mixColor (left right : JsColor) (amount : ℚ) : JsColor :=
  let r := jsAdd (jsMul left.r (some (1 - amount))) (jsMul right.r (some amount))
  let g := jsAdd (jsMul left.g (some (1 - amount))) (jsMul right.g (some amount))
  let b := jsAdd (jsMul left.b (some (1 - amount))) (jsMul right.b (some amount))
  let a := jsAdd (jsMul (left.a.getD (some 1)) (some (1 - amount)))
                 (jsMul (right.a.getD (some 1)) (some amount))
  if (match left.a with
      | none => decide ((1 : ℚ) ≤ EPSILON)
      | some v => jsTruthy v) then
    ⟨right.r, right.g, right.b, some a⟩
  else if (match right.a with
      | none => decide ((1 : ℚ) ≤ EPSILON)
      | some v => jsTruthy v) then
    ⟨left.r, left.g, left.b, some a⟩
  else ⟨r, g, b, some a⟩


/-! ## Font (`src/font.tsx`, `PixelFont`)

Only the constructor is embedded: the claim under study concerns which
resources it accepts and which it rejects.  The resource is the raw text
as `List Char`; `String.prototype.split` with a one-character separator is
`splitOnChar`. -/

/-- JS `String.prototype.split` with a one-character separator:
`"a:b".split(":") = ["a","b"]`, `"".split(":") = [""]`, empty segments are
kept. -/
def splitOnChar (sep : Char) : List Char → List (List Char)
  | [] => [[]]
  | c :: rest =>
    match splitOnChar sep rest with
    | [] => [[c]]
    | t :: ts => if c = sep then [] :: t :: ts else (c :: t) :: ts

/-- JS whitespace characters relevant to number coercion. -/
def isJsSpace (c : Char) : Bool :=
  c = ' ' || c = '\t' || c = '\n' || c = '\r'

/-- JS unary `+` on a string (`Number(s)`): trimmed-empty coerces to `0`,
an optionally signed decimal numeral (with optional fraction part) to its
value, anything else to `NaN` (`none`).  Exponent notation, hex literals
and `Infinity` are not modelled; no theorem below feeds them in. -/
def jsToNumber (s : List Char) : Option ℚ :=
  let t := ((s.dropWhile isJsSpace).reverse.dropWhile isJsSpace).reverse
  if t.isEmpty then some 0
  else
    let signed : ℚ × List Char :=
      match t with
      | '-' :: r => (-1, r)
      | '+' :: r => (1, r)
      | _ => (1, t)
    let intPart := signed.2.takeWhile Char.isDigit
    let rest := signed.2.drop intPart.length
    match rest with
    | [] => if intPart.isEmpty then none else some (signed.1 * digitsToNat intPart)
    | '.' :: frac =>
      if (intPart.isEmpty && frac.isEmpty) || !frac.all Char.isDigit then none
      else some (signed.1 * ((digitsToNat intPart : ℚ) + (digitsToNat frac : ℚ) / 10 ^ frac.length))
    | _ => none

/-- The `PixelFontHeightMode` option of the font constructor. -/
inductive PixelFontHeightMode where
  | descender
  | height
  deriving DecidableEq

/-- The state a successfully constructed `PixelFont` holds (the parts the
constructor computes; the lazily rasterized glyph canvases are render-time
state).  `glyphs` keeps the parsed codepoint (`none` = `NaN`) and the
base64 payload (`none` when the line had no `:`); the `to_utf16` map-key
encoding is irrelevant to acceptance and not modelled. -/
structure PFont where
  width : Option ℚ
  fontHeight : Option ℚ
  yOffset : Option ℚ
  glyphs : List (Option ℤ × Option (List Char))

/-- Whether an `Except` is a success. -/
def exceptOk {ε α : Type} : Except ε α → Bool
  | Except.ok _ => true
  | Except.error _ => false

/-- The metrics list the constructor validates:
`lines[3]?.split?.(":") ?? []`. -/
def metricsOf (pfs : List Char) : List (List Char) :=
  match (splitOnChar '\n' pfs)[3]? with
  | some l => splitOnChar ':' l
  | none => []

/-- The `PixelFont` constructor from `src/font.tsx`: split the resource
into lines; line index 3 must split on `":"` into exactly 8 fields, each
coercible to a number, otherwise a descriptive error is thrown.  Glyph
lines are mapped to `(parseInt(lhs), rhs)`; the source's
`if (Number.isNaN(lhs))` guard compares the *string* `lhs` against `NaN`
without coercion, is therefore always false, and can reject nothing. -/
def pixelFontInit (pfs : List Char) (heightMode : PixelFontHeightMode) :
    Except (List Char) PFont :=
  let lines := splitOnChar '\n' pfs
  let metrics := metricsOf pfs
  if metrics.length != 8 || !(metrics.all fun x => (jsToNumber x).isSome) then
    Except.error ("Invalid .pfs file: invalid metrics ('".data
      ++ (lines[3]?).getD "undefined".data ++ "')".data)
  else
    let ms := metrics.map jsToNumber
    let width := (ms[0]?).getD none
    let declaredHeight := (ms[1]?).getD none
    let baseline := (ms[2]?).getD none
    let ascend := (ms[3]?).getD none
    let descend := (ms[4]?).getD none
    let fh :=
      match heightMode with
      | PixelFontHeightMode.descender => jsSub ascend descend
      | PixelFontHeightMode.height => declaredHeight
    let yOff :=
      match heightMode with
      | PixelFontHeightMode.descender => jsSub baseline ascend
      | PixelFontHeightMode.height => some 0
    let glyphs := (lines.drop 4).map fun line =>
      let parts := splitOnChar ':' line
      (parseIntDec ((parts[0]?).getD []), parts[1]?)
    Except.ok { width := width, fontHeight := fh, yOffset := yOff, glyphs := glyphs }


/-! ## Simulation (`src/simulation.ts`, class `Simulation`)

The embedded engine is the class-based `Simulation` (the version with
`getTick`, the warning `set` and the `performance` options); the older
function-based `simulation()` in the repository differs only where noted
in the theorems below.

The per-cell tick callback is modelled as a pure function
`OnTickFn T = Grid T → ℤ → ℤ → Bool × List (ℤ × ℤ × (T → T))`: during the
sweep the handle's non-destructive surface consists of `get` — reads of
the cells grid, which no operation mutates before the update-application
phase — and `update`, which enqueues actions; the callback receives the
cells grid and returns (did it return `SLEEP`?, the updates it enqueued,
in order).  Effect registration from inside callbacks is outside the
scope of the claims and not modelled. -/

/-- `ASLEEP_RATIO` from the source. -/
def ASLEEP_RATIO : ℕ := 8

/-- An effect object as the engine sees it (cf. `SimulationEffect` /
`FadeEffect` in `src/effect.ts`): its only internal state is a tick
counter advanced by `nextTick()`, and `done()` is a pure predicate of
that counter. -/
structure SimEffect where
  age : ℕ
  doneAt : ℕ → Bool
  affected : List (ℤ × ℤ)

/-- `nextTick()` of an effect. -/
def SimEffect.nextTick (e : SimEffect) : SimEffect := { e with age := e.age + 1 }

/-- `done()` of an effect. -/
def SimEffect.done (e : SimEffect) : Bool := e.doneAt e.age

/-- The mutable state of a `Simulation` instance. -/
structure SimState (T : Type) where
  cells : Grid T
  dirty : Grid Bool
  effectGrid : Grid (List SimEffect)
  asleep : Grid Bool
  effects : List SimEffect
  actions : List (ℤ × ℤ × (T → T))
  globalDirty : Bool
  currentTick : ℕ

/-- The grid state set up by the `Simulation` constructor
(`initialDirty = !performance?.initialStateIsClean`,
`initialSleepy = performance?.initialStateSleep ?? false`; `onInit` is a
host callback and not part of the state initialization). -/
def Simulation.init {T : Type} (bounds : Rect) (defaultState : T)
    (initialDirty initialSleepy : Bool) : SimState T :=
  { cells := Grid.ofFill bounds defaultState,
    dirty := Grid.ofFill bounds initialDirty,
    effectGrid := Grid.ofFn bounds (fun _ _ => []),
    asleep := Grid.ofFill (divideRect bounds ASLEEP_RATIO) initialSleepy,
    effects := [], actions := [], globalDirty := initialDirty, currentTick := 0 }

/-- `Simulation.set`: attempt the cell write (a failure only logs a
warning), then unconditionally mark the cell dirty, wake the containing
sleep block and set the global dirty flag. -/
def Simulation.set {T : Type} (s : SimState T) (x y : ℤ) (st : T) : SimState T :=
  { s with
    cells := (s.cells.set x y st).1,
    dirty := (s.dirty.set x y true).1,
    asleep := (s.asleep.set (x.fdiv ASLEEP_RATIO) (y.fdiv ASLEEP_RATIO) false).1,
    globalDirty := true }

/-- `Simulation.get`: the cell value, or the configured default outside
the bounds. -/
def Simulation.get {T : Type} (defaultState : T) (s : SimState T) (x y : ℤ) : T :=
  (s.cells.get x y).getD defaultState

/-- `Simulation.update`: push the deferred transform onto the action
queue; nothing else changes. -/
def Simulation.update {T : Type} (s : SimState T) (x y : ℤ) (f : T → T) : SimState T :=
  { s with actions := s.actions ++ [(x, y, f)] }

/-- `Simulation.getTick`. -/
def Simulation.getTick {T : Type} (s : SimState T) : ℕ := s.currentTick

/-- The list `start, start+1, …, start+len-1`. -/
def intRange (start : ℤ) (len : ℕ) : List ℤ :=
  (List.range len).map fun (i : ℕ) => start + (i : ℤ)

/-- The inclusive range `lo..hi` (empty when `hi < lo`), as used by the
wake-propagation loops `for (gy = y-r; gy <= y+r; gy++)`. -/
def intRangeIncl (lo hi : ℤ) : List ℤ :=
  intRange lo (hi + 1 - lo).toNat

/-- Row-major enumeration of the coordinates of a rect (`y` outer,
`x` inner), the visitation order of every nested
`for (y …) for (x …)` loop in the source. -/
def rectCoords (r : Rect) : List (ℤ × ℤ) :=
  (intRange r.y r.height).flatMap fun y => (intRange r.x r.width).map fun x => (x, y)

/-- `wakeAt` of `iterAwake`: record the block containing `(x, y)` in the
awake set unless it lies outside the sleep grid (the JS `Set` of linear
indices is modelled as a deduplicated list of block coordinates). -/
def wakeAdd (ratio : ℕ) (asleepRect : Rect) (awake : List (ℤ × ℤ)) (x y : ℤ) :
    List (ℤ × ℤ) :=
  let gx := x.fdiv ratio
  let gy := y.fdiv ratio
  if gx < asleepRect.x ∨ gx ≥ asleepRect.x + asleepRect.width
      ∨ gy < asleepRect.y ∨ gy ≥ asleepRect.y + asleepRect.height then awake
  else if (gx, gy) ∈ awake then awake else awake ++ [(gx, gy)]

/-- The inner two loops of `iterAwake` over one block: for each cell row
inside the cells grid's vertical range, for each cell with a non-`null`
`cells.get`, run the callback, and record the block for waking when the
callback returns `true`. -/
def iterAwakeBlock {C A : Type} (cells : Grid C) (cb : A → C → ℤ → ℤ → A × Bool)
    (ratio : ℕ) (asleepRect : Rect) (gx gy : ℤ) (st : A × List (ℤ × ℤ)) :
    A × List (ℤ × ℤ) :=
  (List.range ratio).foldl (fun st dy =>
    let y := gy * ratio + dy
    if y < cells.top ∨ y ≥ cells.top + cells.height then st
    else (List.range ratio).foldl (fun st dx =>
      let x := gx * ratio + dx
      match cells.get x y with
      | none => st
      | some c =>
        let res := cb st.1 c x y
        if res.2 then (res.1, wakeAdd ratio asleepRect st.2 x y)
        else (res.1, st.2)) st) st

/-- `iterAwake` from the source, generic over the iterated grid `C` and
an accumulator `A` standing for the state the JS callback closes over:
sweep the sleep blocks in row-major order, skipping blocks currently
marked asleep, tentatively re-marking each visited block asleep
(`resetAsleep`), then wake the recorded blocks and their
`ceil(wakeRadius/ratio)`-neighborhoods after the sweep. -/
def iterAwake {C A : Type} (cells : Grid C) (asleep0 : Grid Bool) (ratio : ℕ)
    (cb : A → C → ℤ → ℤ → A × Bool) (wakeRadius : ℕ) (resetAsleep : Bool)
    (a0 : A) : A × Grid Bool :=
  let wakeMetaradius : ℤ := ((wakeRadius + (ratio - 1)) / ratio : ℕ)
  let sweep := (rectCoords asleep0.rect).foldl
    (fun (st : A × Grid Bool × List (ℤ × ℤ)) g =>
      if (st.2.1.get g.1 g.2).getD false then st
      else
        let asleep1 := if resetAsleep then (st.2.1.set g.1 g.2 true).1 else st.2.1
        let res := iterAwakeBlock cells cb ratio asleep0.rect g.1 g.2 (st.1, st.2.2)
        (res.1, asleep1, res.2))
    (a0, asleep0, ([] : List (ℤ × ℤ)))
  let asleepFinal := sweep.2.2.foldl (fun (as : Grid Bool) g =>
    (intRangeIncl (g.2 - wakeMetaradius) (g.2 + wakeMetaradius)).foldl (fun as gy =>
      (intRangeIncl (g.1 - wakeMetaradius) (g.1 + wakeMetaradius)).foldl (fun as gx =>
        (as.set gx gy false).1) as) as) sweep.2.1
  (sweep.1, asleepFinal)

/-- The per-cell tick callback type: the cells grid (frozen during the
sweep) and the coordinate go in; out come "returned `SLEEP`?" and the
deferred updates the callback enqueued. -/
def OnTickFn (T : Type) : Type :=
  Grid T → ℤ → ℤ → Bool × List (ℤ × ℤ × (T → T))

/-- The update-application phase of `tick()` (step "Trigger the
updates"): apply the queued transforms in order; a transform whose cell
reads `null` is dropped; an applied transform writes the cell, marks it
dirty and wakes its block. -/
def applyActionsPhase {T : Type} (acts : List (ℤ × ℤ × (T → T)))
    (cells : Grid T) (dirty : Grid Bool) (asleep : Grid Bool) :
    Grid T × Grid Bool × Grid Bool :=
  acts.foldl (fun st a =>
    match st.1.get a.1 a.2.1 with
    | none => st
    | some prev =>
      ((st.1.set a.1 a.2.1 (a.2.2 prev)).1,
       (st.2.1.set a.1 a.2.1 true).1,
       (st.2.2.set (a.1.fdiv ASLEEP_RATIO) (a.2.1.fdiv ASLEEP_RATIO) false).1))
    (cells, dirty, asleep)

/-- `Simulation.tick` from the source.  `newBounds` is the value the
(possibly dynamic) `simulationBounds` evaluates to at this tick;
`defaultState`, `initialDirty`, `initialSleepy` are the constructor
options the resize path re-uses.  Phases, in source order: set the global
dirty flag; age then prune the global effect list; `iterAwake` sweep over
the effect grid whose callback reads the *global* effect list (as the
source does), marks cells dirty while it is non-empty, re-prunes it,
and runs the per-cell callback; resize every grid by re-blit when the
bounds changed; apply the queued updates; clear the queue and increment
the tick counter. -/
def Simulation.tick {T : Type} (newBounds : Rect) (onTickF : OnTickFn T)
    (wakeRadius : ℕ) (defaultState : T) (initialDirty initialSleepy : Bool)
    (s : SimState T) : SimState T :=
  let effectsAged := s.effects.map SimEffect.nextTick
  let effectsPruned := effectsAged.filter fun e => !e.done
  let sweep := iterAwake s.effectGrid s.asleep ASLEEP_RATIO
    (fun (acc : Grid Bool × List SimEffect × List (ℤ × ℤ × (T → T))) _cellEffects x y =>
      let stayAwake0 := decide (0 < acc.2.1.length)
      let dirty1 := if 0 < acc.2.1.length then (acc.1.set x y true).1 else acc.1
      let effs1 := acc.2.1.filter fun e => !e.done
      let r := onTickF s.cells x y
      ((dirty1, effs1, acc.2.2 ++ r.2), stayAwake0 || !r.1))
    wakeRadius true (s.dirty, effectsPruned, s.actions)
  let resized :=
    if rectsEqual newBounds s.cells.rect then
      (s.cells, sweep.1.1, s.effectGrid, sweep.2)
    else
      (Grid.blit newBounds s.cells fun _ _ => defaultState,
       Grid.blit newBounds sweep.1.1 fun _ _ => initialDirty,
       Grid.blit newBounds s.effectGrid fun _ _ => ([] : List SimEffect),
       Grid.blit (divideRect newBounds ASLEEP_RATIO) sweep.2 fun _ _ => initialSleepy)
  let applied := applyActionsPhase sweep.1.2.2 resized.1 resized.2.1 resized.2.2.2
  { cells := applied.1,
    dirty := applied.2.1,
    effectGrid := resized.2.2.1,
    asleep := applied.2.2,
    effects := sweep.1.2.1,
    actions := [],
    globalDirty := true,
    currentTick := s.currentTick + 1 }



/-! ## renderDirty (`src/simulation.ts`)

The non-full render path.  The embedding records the observable effect of
the loop on the dirty grid together with the list of cells passed to
`renderSingle` (the actual pixel output, and `renderSingle`'s pruning of
completed effects from the per-cell list, concern the drawing surface and
are not modelled).  The loop visits the rect in row-major order; a cell is
skipped unless its dirty flag reads truthy (`!this.dirty.get(x, y)` with
`null` falsy), and a drawn cell's flag is set to `false`. -/

/-- One step of the `renderDirty` loop per coordinate, in visitation
order. -/
def renderDirtyGo (ps : List (ℤ × ℤ)) (drawn : List (ℤ × ℤ)) (dirty : Grid Bool) :
    List (ℤ × ℤ) × Grid Bool :=
  match ps with
  | [] => (drawn, dirty)
  | p :: rest =>
    if (dirty.get p.1 p.2).getD false then
      renderDirtyGo rest (drawn ++ [p]) (dirty.set p.1 p.2 false).1
    else renderDirtyGo rest drawn dirty

set_option linter.unusedVariables false in
/-- `renderDirty` from `src/simulation.ts`: sweep the requested rect; the
per-cell effect list is fetched for the draw call but plays no part in
the redraw decision. -/
def renderDirty {T E : Type} (cells : Grid T) (dirty : Grid Bool)
    (effectGrid : Grid (List E)) (rect : Rect) : List (ℤ × ℤ) × Grid Bool :=
  renderDirtyGo (rectCoords rect) [] dirty



/-! ## Theorems -/

section GridLemmas

variable {T : Type}

theorem Grid.get_eq_none_of_not_mem (g : Grid T) (x y : ℤ) (h : ¬ g.mem x y) :
    g.get x y = none := by
  unfold Grid.get
  unfold Grid.mem at h
  rw [if_pos]
  omega

theorem Grid.index_lt (g : Grid T) (x y : ℤ) (h : g.mem x y) :
    ((y - g.top) * g.width + (x - g.left)).toNat < g.data.length := by
  obtain ⟨h1, h2, h3, h4⟩ := h
  rw [g.hlen]
  have hx : (0:ℤ) ≤ x - g.left := by omega
  have hy : (0:ℤ) ≤ y - g.top := by omega
  have hx' : x - g.left < g.width := by omega
  have hy' : y - g.top < g.height := by omega
  have hub : (y - g.top) * g.width + (x - g.left) < (g.width : ℤ) * g.height := by
    nlinarith
  have hj : 0 ≤ (y - g.top) * (g.width : ℤ) := mul_nonneg (by omega) (by omega)
  have hi : (0:ℤ) < (g.width : ℤ) * g.height := mul_pos (by omega) (by omega)
  omega

theorem Grid.get_eq_some_of_mem (g : Grid T) (x y : ℤ) (h : g.mem x y) :
    g.get x y = g.data[((y - g.top) * g.width + (x - g.left)).toNat]? := by
  simp only [Grid.get]
  obtain ⟨h1, h2, h3, h4⟩ := h
  split
  · rename_i hc
    exact absurd hc (by omega)
  · rfl

theorem Grid.isSome_get_of_mem (g : Grid T) (x y : ℤ) (h : g.mem x y) :
    (g.get x y).isSome := by
  rw [g.get_eq_some_of_mem x y h]
  rw [List.getElem?_eq_getElem (g.index_lt x y h)]
  simp

/-- Value of `Grid.ofFn` at an in-bounds coordinate. -/
theorem Grid.get_ofFn (rect : Rect) (fill : ℤ → ℤ → T) (x y : ℤ)
    (h : rect.mem x y) : (Grid.ofFn rect fill).get x y = some (fill x y) := by
  obtain ⟨h1, h2, h3, h4⟩ := h
  have hmem : (Grid.ofFn rect fill).mem x y := ⟨h1, h2, h3, h4⟩
  rw [Grid.get_eq_some_of_mem _ _ _ hmem]
  have hidx := Grid.index_lt _ x y hmem
  simp only [Grid.ofFn] at hidx ⊢
  rw [List.getElem?_eq_getElem hidx]
  rw [List.getElem_map]
  congr 1
  · -- the generator receives back exactly (x, y)
    set a : ℕ := (x - rect.x).toNat with ha
    set b : ℕ := (y - rect.y).toNat with hb
    have hxa : (x : ℤ) = rect.x + a := by simp only [ha]; omega
    have hyb : (y : ℤ) = rect.y + b := by simp only [hb]; omega
    have haw : a < rect.width := by simp only [ha]; omega
    have hidx2 : ((y - rect.y) * rect.width + (x - rect.x)).toNat = b * rect.width + a := by
      have : (y - rect.y) * rect.width + (x - rect.x) = ((b * rect.width + a : ℕ) : ℤ) := by
        push_cast
        rw [hxa, hyb]; ring
      omega
    rw [List.getElem_range]
    rw [hidx2]
    have hw : 0 < rect.width := by omega
    have hmod : (b * rect.width + a) % rect.width = a := by
      rw [Nat.add_comm, Nat.add_mul_mod_self_right]
      exact Nat.mod_eq_of_lt haw
    have hdivv : (b * rect.width + a) / rect.width = b := by
      rw [Nat.add_comm, Nat.add_mul_div_right _ _ hw, Nat.div_eq_of_lt haw]
      omega
    rw [hmod, hdivv, hxa, hyb]
    ring_nf

/-- Value of `Grid.ofFill` at an in-bounds coordinate. -/
theorem Grid.get_ofFill (rect : Rect) (v : T) (x y : ℤ)
    (h : rect.mem x y) : (Grid.ofFill rect v).get x y = some v := by
  obtain ⟨h1, h2, h3, h4⟩ := h
  have hmem : (Grid.ofFill rect v).mem x y := ⟨h1, h2, h3, h4⟩
  rw [Grid.get_eq_some_of_mem _ _ _ hmem]
  have hidx := Grid.index_lt _ x y hmem
  simp only [Grid.ofFill] at hidx ⊢
  rw [List.getElem?_eq_getElem hidx]
  simp

end GridLemmas

section SetLemmas

variable {T : Type}

theorem Grid.set_eq_of_not_mem (g : Grid T) (x y : ℤ) (v : T) (h : ¬ g.mem x y) :
    g.set x y v = (g, false) := by
  unfold Grid.set
  unfold Grid.mem at h
  rw [if_pos]
  omega

theorem Grid.set_left (g : Grid T) (x y : ℤ) (v : T) :
    ((g.set x y v).1).left = g.left := by
  simp only [Grid.set]
  split <;> rfl

theorem Grid.set_top (g : Grid T) (x y : ℤ) (v : T) :
    ((g.set x y v).1).top = g.top := by
  simp only [Grid.set]
  split <;> rfl

theorem Grid.set_width (g : Grid T) (x y : ℤ) (v : T) :
    ((g.set x y v).1).width = g.width := by
  simp only [Grid.set]
  split <;> rfl

theorem Grid.set_height (g : Grid T) (x y : ℤ) (v : T) :
    ((g.set x y v).1).height = g.height := by
  simp only [Grid.set]
  split <;> rfl

theorem Grid.mem_set_iff (g : Grid T) (x y a b : ℤ) (v : T) :
    ((g.set x y v).1).mem a b ↔ g.mem a b := by
  unfold Grid.mem
  rw [Grid.set_left, Grid.set_top, Grid.set_width, Grid.set_height]

theorem Grid.data_set_of_mem (g : Grid T) (x y : ℤ) (v : T) (h : g.mem x y) :
    ((g.set x y v).1).data
      = g.data.set ((y - g.top) * g.width + (x - g.left)).toNat v := by
  obtain ⟨h1, h2, h3, h4⟩ := h
  unfold Grid.set
  rw [if_neg (by omega)]

theorem Grid.get_set_self (g : Grid T) (x y : ℤ) (v : T) (h : g.mem x y) :
    (g.set x y v).1.get x y = some v := by
  rw [Grid.get_eq_some_of_mem _ _ _ ((Grid.mem_set_iff g x y x y v).mpr h)]
  rw [Grid.set_top, Grid.set_width, Grid.set_left, Grid.data_set_of_mem g x y v h]
  exact List.getElem?_set_self (Grid.index_lt g x y h)

theorem Grid.mem_of_get_eq_some (g : Grid T) (x y : ℤ) (v : T)
    (h : g.get x y = some v) : g.mem x y := by
  by_contra hc
  rw [Grid.get_eq_none_of_not_mem g x y hc] at h
  exact Option.noConfusion h

/-- Injectivity of the row-major index map on a bounded column. -/
theorem rowMajor_inj (w : ℕ) (r1 c1 r2 c2 : ℤ) (hc1 : 0 ≤ c1) (hc1w : c1 < w)
    (hc2 : 0 ≤ c2) (hc2w : c2 < w) (heq : r1 * w + c1 = r2 * w + c2) :
    r1 = r2 ∧ c1 = c2 := by
  have hw : (0:ℤ) < w := by omega
  have h1 : r1 ≤ r2 := by
    by_contra hlt
    push_neg at hlt
    have hge : r2 + 1 ≤ r1 := by omega
    nlinarith [mul_le_mul_of_nonneg_right hge (le_of_lt hw)]
  have h2 : r2 ≤ r1 := by
    by_contra hlt
    push_neg at hlt
    have hge : r1 + 1 ≤ r2 := by omega
    nlinarith [mul_le_mul_of_nonneg_right hge (le_of_lt hw)]
  have hr : r1 = r2 := le_antisymm h1 h2
  subst hr
  exact ⟨rfl, by linarith⟩

theorem Grid.get_set_ne (g : Grid T) (x y a b : ℤ) (v : T)
    (hne : ¬ (a = x ∧ b = y)) : (g.set x y v).1.get a b = g.get a b := by
  by_cases hm : g.mem x y
  · by_cases hab : g.mem a b
    · rw [Grid.get_eq_some_of_mem _ _ _ ((Grid.mem_set_iff g x y a b v).mpr hab)]
      rw [Grid.get_eq_some_of_mem _ _ _ hab]
      rw [Grid.set_top, Grid.set_width, Grid.set_left, Grid.data_set_of_mem g x y v hm]
      apply List.getElem?_set_ne
      intro heqn
      obtain ⟨hx1, hx2, hx3, hx4⟩ := hm
      obtain ⟨ha1, ha2, ha3, ha4⟩ := hab
      have hnn1 : 0 ≤ (y - g.top) * (g.width : ℤ) :=
        mul_nonneg (by omega) (by omega)
      have hnn2 : 0 ≤ (b - g.top) * (g.width : ℤ) :=
        mul_nonneg (by omega) (by omega)
      have heqz : (y - g.top) * (g.width : ℤ) + (x - g.left)
          = (b - g.top) * (g.width : ℤ) + (a - g.left) := by omega
      have hinj := rowMajor_inj g.width (y - g.top) (x - g.left) (b - g.top) (a - g.left)
        (by omega) (by omega) (by omega) (by omega) heqz
      exact hne ⟨by omega, by omega⟩
    · rw [Grid.get_eq_none_of_not_mem _ a b
        (fun c => hab ((Grid.mem_set_iff g x y a b v).mp c))]
      rw [Grid.get_eq_none_of_not_mem _ a b hab]
  · rw [Grid.set_eq_of_not_mem g x y v hm]

end SetLemmas

/-- **C1** (Deferred-update visibility).  First conjunct: enqueueing any
sequence of deferred transforms via `update` during a pass leaves every
`get` unchanged — a read of an already-queued cell still returns the
pre-tick value.  Second conjunct: the queued transform becomes visible at
the tick's update-application phase, which rewrites the cell to the
transformed previous value. -/
theorem C1_deferred_update_visibility {T : Type} (d : T) (s : SimState T)
    (qs : List (ℤ × ℤ × (T → T))) (a b : ℤ) :
    Simulation.get d (qs.foldl (fun s q => Simulation.update s q.1 q.2.1 q.2.2) s) a b
      = Simulation.get d s a b ∧
    (∀ (cells : Grid T) (dirty asleep : Grid Bool) (x y : ℤ) (f : T → T) (p : T),
      cells.get x y = some p →
      (applyActionsPhase [(x, y, f)] cells dirty asleep).1.get x y = some (f p)) := by
  constructor
  · have hc : ∀ (qs : List (ℤ × ℤ × (T → T))) (s : SimState T),
        (qs.foldl (fun s q => Simulation.update s q.1 q.2.1 q.2.2) s).cells = s.cells := by
      intro qs
      induction qs with
      | nil => intro s; rfl
      | cons q rest ih => intro s; rw [List.foldl_cons]; exact ih _
    unfold Simulation.get
    rw [hc qs s]
  · intro cells dirty asleep x y f p hp
    have hm := Grid.mem_of_get_eq_some cells x y p hp
    unfold applyActionsPhase
    rw [List.foldl_cons, List.foldl_nil]
    simp only [hp]
    exact Grid.get_set_self cells x y (f p) hm

/-- Witness for C1 at a concrete input. -/
theorem C1_deferred_update_visibility_witness :
    (applyActionsPhase [((0:ℤ), (0:ℤ), fun b => !b)]
        (Grid.ofFill ⟨0, 0, 1, 1⟩ false) (Grid.ofFill ⟨0, 0, 1, 1⟩ false)
        (Grid.ofFill ⟨0, 0, 1, 1⟩ false)).1.get 0 0 = some true :=
  (C1_deferred_update_visibility false (Simulation.init ⟨0, 0, 1, 1⟩ false true false)
    [] 0 0).2 (Grid.ofFill ⟨0, 0, 1, 1⟩ false) (Grid.ofFill ⟨0, 0, 1, 1⟩ false)
    (Grid.ofFill ⟨0, 0, 1, 1⟩ false) 0 0 (fun b => !b) false (by decide)

/-- **C2, counterexample**.  `set` outside the current bounds *does*
observably change a sleep block: with bounds `{0,0,9,8}` (sleep grid
`{0,0,2,1}`) and all blocks initially asleep, the failed write
`set(9, 0, …)` — cell `(9,0)` is out of bounds — flips sleep block
`(1,0)` awake.  This refutes "no cell state, dirty flag, or sleep block
observably changed by the failed write". -/
theorem C2_counterexample :
    ((Simulation.init (T := Bool) ⟨0, 0, 9, 8⟩ false true true).cells.get 9 0 = none) ∧
    ((Simulation.init (T := Bool) ⟨0, 0, 9, 8⟩ false true true).asleep.get 1 0 = some true) ∧
    ((Simulation.set (Simulation.init (T := Bool) ⟨0, 0, 9, 8⟩ false true true) 9 0 true).asleep.get 1 0
      = some false) := by
  refine ⟨by decide, by decide, by decide⟩

/-- **C2, amended**.  `set` at an out-of-bounds coordinate never throws
(the embedded function is total: the source logs a warning), and leaves
the cell states unchanged and — whenever the coordinate is also outside
the dirty grid, which shares the cells' rect — the dirty flags unchanged;
but it still unconditionally wakes the block at
`(floor(x/8), floor(y/8))` (an observable change whenever that block lies
inside the sleep grid) and sets the global dirty flag. -/
theorem C2_set_out_of_bounds {T : Type} (s : SimState T) (x y : ℤ) (st : T)
    (hx : ¬ s.cells.mem x y) :
    (Simulation.set s x y st).cells = s.cells ∧
    (¬ s.dirty.mem x y → (Simulation.set s x y st).dirty = s.dirty) ∧
    (Simulation.set s x y st).asleep
      = (s.asleep.set (x.fdiv ASLEEP_RATIO) (y.fdiv ASLEEP_RATIO) false).1 ∧
    (Simulation.set s x y st).globalDirty = true := by
  refine ⟨?_, ?_, rfl, rfl⟩
  · show (s.cells.set x y st).1 = s.cells
    rw [Grid.set_eq_of_not_mem s.cells x y st hx]
  · intro hd
    show (s.dirty.set x y true).1 = s.dirty
    rw [Grid.set_eq_of_not_mem s.dirty x y true hd]

/-- Witness for C2 (amended) at a concrete input. -/
theorem C2_set_out_of_bounds_witness :
    (Simulation.set (Simulation.init (T := Bool) ⟨0, 0, 9, 8⟩ false true true) 9 0 true).cells
      = (Simulation.init (T := Bool) ⟨0, 0, 9, 8⟩ false true true).cells :=
  (C2_set_out_of_bounds (Simulation.init (T := Bool) ⟨0, 0, 9, 8⟩ false true true)
    9 0 true (by decide)).1

/-- **C3** (writes mark dirty and wake the block).  For the immediate
`set` path: after `set(x, y, st)` the cell's dirty flag reads `true`
(whenever the cell lies in the dirty grid, which shares the cells' rect)
and the containing sleep block `(floor(x/8), floor(y/8))` reads awake
(whenever that block lies in the sleep grid).  For the deferred path: an
applied queued update (one whose cell reads non-`null` at application
time) writes the transformed value and likewise marks the cell dirty and
wakes its block. -/
theorem C3_write_marks_dirty_and_wakes {T : Type} (s : SimState T) (x y : ℤ) (st : T)
    (cells : Grid T) (dirty asleep : Grid Bool) (f : T → T) (p : T) :
    (s.dirty.mem x y → (Simulation.set s x y st).dirty.get x y = some true) ∧
    (s.asleep.mem (x.fdiv ASLEEP_RATIO) (y.fdiv ASLEEP_RATIO) →
      (Simulation.set s x y st).asleep.get (x.fdiv ASLEEP_RATIO) (y.fdiv ASLEEP_RATIO) = some false) ∧
    (cells.get x y = some p →
      (applyActionsPhase [(x, y, f)] cells dirty asleep).1.get x y = some (f p) ∧
      (dirty.mem x y →
        (applyActionsPhase [(x, y, f)] cells dirty asleep).2.1.get x y = some true) ∧
      (asleep.mem (x.fdiv ASLEEP_RATIO) (y.fdiv ASLEEP_RATIO) →
        (applyActionsPhase [(x, y, f)] cells dirty asleep).2.2.get
          (x.fdiv ASLEEP_RATIO) (y.fdiv ASLEEP_RATIO) = some false)) := by
    refine ⟨?_, ?_, ?_⟩
    · intro hd
      exact Grid.get_set_self s.dirty x y true hd
    · intro ha
      exact Grid.get_set_self s.asleep _ _ false ha
    · intro hp
      have hm := Grid.mem_of_get_eq_some cells x y p hp
      unfold applyActionsPhase
      rw [List.foldl_cons, List.foldl_nil]
      simp only [hp]
      refine ⟨Grid.get_set_self cells x y (f p) hm, ?_, ?_⟩
      · intro hd
        exact Grid.get_set_self dirty x y true hd
      · intro ha
        exact Grid.get_set_self asleep _ _ false ha

/-- Witness for C3 at a concrete input. -/
theorem C3_write_marks_dirty_and_wakes_witness :
    (Simulation.set (Simulation.init (T := Bool) ⟨0, 0, 8, 8⟩ false false true) 3 2 true).dirty.get 3 2
      = some true ∧
    (Simulation.set (Simulation.init (T := Bool) ⟨0, 0, 8, 8⟩ false false true) 3 2 true).asleep.get 0 0
      = some false := by
  constructor
  · exact (C3_write_marks_dirty_and_wakes
      (Simulation.init (T := Bool) ⟨0, 0, 8, 8⟩ false false true) 3 2 true
      (Grid.ofFill ⟨0, 0, 1, 1⟩ false) (Grid.ofFill ⟨0, 0, 1, 1⟩ false)
      (Grid.ofFill ⟨0, 0, 1, 1⟩ false) id false).1 (by decide)
  · exact (C3_write_marks_dirty_and_wakes
      (Simulation.init (T := Bool) ⟨0, 0, 8, 8⟩ false false true) 3 2 true
      (Grid.ofFill ⟨0, 0, 1, 1⟩ false) (Grid.ofFill ⟨0, 0, 1, 1⟩ false)
      (Grid.ofFill ⟨0, 0, 1, 1⟩ false) id false).2.1 (by decide)

/-- **C5** (tick counter).  Every `tick()` ends with an empty pending
queue and a counter one higher than before, and `getTick` after `n` ticks
on a freshly constructed simulation is `n` — regardless of bounds,
callback, wake radius or performance options. -/
theorem C5_tick_counter {T : Type} (newBounds : Rect) (onTickF : OnTickFn T)
    (wakeRadius : ℕ) (d : T) (iD iS : Bool) (bounds0 : Rect) (s : SimState T) (n : ℕ) :
    ((Simulation.tick newBounds onTickF wakeRadius d iD iS s).actions = [] ∧
     (Simulation.tick newBounds onTickF wakeRadius d iD iS s).currentTick
       = s.currentTick + 1) ∧
    Simulation.getTick
      ((fun s => Simulation.tick newBounds onTickF wakeRadius d iD iS s)^[n]
        (Simulation.init bounds0 d iD iS)) = n := by
  refine ⟨⟨rfl, rfl⟩, ?_⟩
  induction n with
  | zero => rfl
  | succ k ih =>
    rw [Function.iterate_succ_apply']
    exact congrArg (fun m => m + 1) ih

set_option maxRecDepth 4000 in
/-- **C7** (code bug: sleep-grid coverage).  With simulation bounds
`{x:4, y:0, width:8, height:8}` — an origin that is not a multiple of the
block ratio 8 — the cell `(11, 0)` is in bounds, but its sleep block
`(floor(11/8), 0) = (1, 0)` lies outside the sleep grid
`divideRect(bounds, 8) = {0, 0, 1, 1}`; the tick sweep (`iterAwake`)
therefore never visits the cell, no matter the callback: even with every
block awake its visited-cell set misses `(11, 0)`, and a tick whose
callback queues an update for every visited cell updates `(5, 0)` but
leaves the in-bounds cell `(11, 0)` untouched, contradicting the
documented "called for each cell at each tick". -/
theorem C7_sleep_grid_coverage_bug :
    (((Simulation.init (T := Bool) ⟨4, 0, 8, 8⟩ false true false).cells.get 11 0).isSome
      = true) ∧
    ¬ (divideRect ⟨4, 0, 8, 8⟩ ASLEEP_RATIO).mem
        ((11:ℤ).fdiv ASLEEP_RATIO) ((0:ℤ).fdiv ASLEEP_RATIO) ∧
    ((11, 0) ∉ (iterAwake (Simulation.init (T := Bool) ⟨4, 0, 8, 8⟩ false true false).effectGrid
        (Simulation.init (T := Bool) ⟨4, 0, 8, 8⟩ false true false).asleep ASLEEP_RATIO
        (fun (visited : List (ℤ × ℤ)) _ x y => (visited ++ [(x, y)], true))
        0 true []).1) ∧
    ((5, 0) ∈ (iterAwake (Simulation.init (T := Bool) ⟨4, 0, 8, 8⟩ false true false).effectGrid
        (Simulation.init (T := Bool) ⟨4, 0, 8, 8⟩ false true false).asleep ASLEEP_RATIO
        (fun (visited : List (ℤ × ℤ)) _ x y => (visited ++ [(x, y)], true))
        0 true []).1) ∧
    ((Simulation.tick ⟨4, 0, 8, 8⟩ (fun _ x y => (false, [(x, y, fun _ => true)]))
        0 false true false (Simulation.init (T := Bool) ⟨4, 0, 8, 8⟩ false true false)).cells.get
        5 0 = some true) ∧
    ((Simulation.tick ⟨4, 0, 8, 8⟩ (fun _ x y => (false, [(x, y, fun _ => true)]))
        0 false true false (Simulation.init (T := Bool) ⟨4, 0, 8, 8⟩ false true false)).cells.get
        11 0 = some false) := by
  refine ⟨by decide, by decide, by decide, by decide, by decide, by decide⟩

theorem mem_intRange_iff (start : ℤ) (len : ℕ) (z : ℤ) :
    z ∈ intRange start len ↔ start ≤ z ∧ z < start + len := by
  unfold intRange
  constructor
  · intro hz
    simp only [List.mem_map, List.mem_range] at hz
    obtain ⟨i, hi, hiz⟩ := hz
    omega
  · intro hz
    simp only [List.mem_map, List.mem_range]
    exact ⟨(z - start).toNat, by omega, by omega⟩

theorem intRange_nodup (start : ℤ) (len : ℕ) : (intRange start len).Nodup := by
  unfold intRange
  refine List.Nodup.map ?_ (List.nodup_range len)
  intro a b h
  have h' : start + (a : ℤ) = start + (b : ℤ) := h
  omega

theorem mem_rectCoords_iff (r : Rect) (p : ℤ × ℤ) :
    p ∈ rectCoords r ↔ r.mem p.1 p.2 := by
  rcases p with ⟨a, b⟩
  unfold rectCoords Rect.mem
  simp only [List.mem_flatMap, List.mem_map, Prod.mk.injEq, mem_intRange_iff]
  constructor
  · rintro ⟨y, ⟨hy1, hy2⟩, x, ⟨hx1, hx2⟩, rfl, rfl⟩
    exact ⟨hx1, hx2, hy1, hy2⟩
  · rintro ⟨h1, h2, h3, h4⟩
    exact ⟨b, ⟨h3, h4⟩, a, ⟨h1, h2⟩, rfl, rfl⟩

theorem rectCoords_nodup (r : Rect) : (rectCoords r).Nodup := by
  unfold rectCoords
  rw [List.nodup_flatMap]
  constructor
  · intro y _
    refine List.Nodup.map ?_ (intRange_nodup r.x r.width)
    intro a b h
    have := congrArg Prod.fst h
    simpa using this
  · refine List.Pairwise.imp ?_ (intRange_nodup r.y r.height)
    intro a b hab
    simp only [Function.onFun, List.disjoint_left]
    intro p hpa hpb
    simp only [List.mem_map] at hpa hpb
    obtain ⟨xa, _, ha⟩ := hpa
    obtain ⟨xb, _, hb⟩ := hpb
    apply hab
    have h2a := congrArg Prod.snd ha
    have h2b := congrArg Prod.snd hb
    simp only at h2a h2b
    omega

/-- Characterization of the `renderDirty` loop: over a duplicate-free
visitation list, a cell ends up drawn iff it was already drawn or is a
visited cell whose dirty flag read `true`; and its dirty flag afterwards
is `false` at exactly the drawn visited cells and unchanged elsewhere. -/
theorem renderDirtyGo_spec (ps : List (ℤ × ℤ)) (hnd : ps.Nodup)
    (drawn : List (ℤ × ℤ)) (dirty : Grid Bool) (q : ℤ × ℤ) :
    (q ∈ (renderDirtyGo ps drawn dirty).1 ↔
      q ∈ drawn ∨ (q ∈ ps ∧ dirty.get q.1 q.2 = some true)) ∧
    ((renderDirtyGo ps drawn dirty).2.get q.1 q.2 =
      if q ∈ ps ∧ dirty.get q.1 q.2 = some true then some false
      else dirty.get q.1 q.2) := by
  induction ps generalizing drawn dirty with
  | nil => simp [renderDirtyGo]
  | cons p rest ih =>
    have hp : p ∉ rest := (List.nodup_cons.mp hnd).1
    have hrest : rest.Nodup := (List.nodup_cons.mp hnd).2
    simp only [renderDirtyGo]
    by_cases hd : (dirty.get p.1 p.2).getD false
    · have hds : dirty.get p.1 p.2 = some true := by
        rcases hg : dirty.get p.1 p.2 with _ | b
        · rw [hg] at hd; simp at hd
        · rcases b with _ | _
          · rw [hg] at hd; simp at hd
          · rfl
      have hpm : dirty.mem p.1 p.2 := Grid.mem_of_get_eq_some _ _ _ _ hds
      rw [if_pos hd]
      obtain ⟨ihm, ihd⟩ := ih hrest (drawn ++ [p]) (dirty.set p.1 p.2 false).1
      by_cases hqp : q = p
      · subst hqp
        constructor
        · rw [ihm]
          have hq' : (dirty.set q.1 q.2 false).1.get q.1 q.2 = some false :=
            Grid.get_set_self _ _ _ _ hpm
          simp [hq', hp, hds]
        · rw [ihd]
          have hq' : (dirty.set q.1 q.2 false).1.get q.1 q.2 = some false :=
            Grid.get_set_self _ _ _ _ hpm
          simp [hq', hp, hds]
      · have hne : ¬ (q.1 = p.1 ∧ q.2 = p.2) := by
          intro hcon
          exact hqp (Prod.ext hcon.1 hcon.2)
        have hget : (dirty.set p.1 p.2 false).1.get q.1 q.2 = dirty.get q.1 q.2 :=
          Grid.get_set_ne _ _ _ _ _ _ hne
        constructor
        · rw [ihm, hget]
          simp only [List.mem_append, List.mem_cons, List.not_mem_nil, or_false]
          constructor
          · rintro ((h | h) | h)
            · exact Or.inl h
            · exact absurd h hqp
            · exact Or.inr ⟨Or.inr h.1, h.2⟩
          · rintro (h | ⟨(h | h), hD⟩)
            · exact Or.inl (Or.inl h)
            · exact absurd h hqp
            · exact Or.inr ⟨h, hD⟩
        · rw [ihd, hget]
          by_cases hqr : q ∈ rest
          · simp [hqr, hqp]
          · simp [hqr, hqp]
    · have hns : dirty.get p.1 p.2 ≠ some true := by
        intro hcon
        rw [hcon] at hd
        simp at hd
      rw [if_neg hd]
      obtain ⟨ihm, ihd⟩ := ih hrest drawn dirty
      by_cases hqp : q = p
      · subst hqp
        constructor
        · rw [ihm]
          simp [hp, hns]
        · rw [ihd]
          simp [hp, hns]
      · constructor
        · rw [ihm]
          simp only [List.mem_cons]
          constructor
          · rintro (h | h)
            · exact Or.inl h
            · exact Or.inr ⟨Or.inr h.1, h.2⟩
          · rintro (h | ⟨(h | h), hD⟩)
            · exact Or.inl h
            · exact absurd h hqp
            · exact Or.inr ⟨h, hD⟩
        · rw [ihd]
          by_cases hqr : q ∈ rest
          · simp [hqr, hqp]
          · simp [hqr, hqp]

/-- **C4, counterexample**.  A cell whose dirty flag is clear but whose
per-cell effect list is non-empty is *not* redrawn by `renderDirty`,
refuting "a clean cell with a non-empty effect list is still redrawn". -/
theorem C4_counterexample :
    ((Grid.ofFill ⟨0, 0, 1, 1⟩ ([()] : List Unit)).get 0 0 = some [()]) ∧
    ((Grid.ofFill ⟨0, 0, 1, 1⟩ false).get 0 0 = some false) ∧
    ((0, 0) ∉ (renderDirty (Grid.ofFill ⟨0, 0, 1, 1⟩ (0 : ℤ))
        (Grid.ofFill ⟨0, 0, 1, 1⟩ false)
        (Grid.ofFill ⟨0, 0, 1, 1⟩ ([()] : List Unit)) ⟨0, 0, 1, 1⟩).1) := by
  refine ⟨by decide, by decide, by decide⟩

/-- **C4, amended**.  In the non-full render path, a cell of the
requested rect is redrawn exactly when its dirty flag reads `true` — the
per-cell effect list plays no part in the decision — and afterwards the
dirty flag of every drawn cell is cleared while every other cell's flag
is unchanged. -/
theorem C4_renderDirty_draws_iff {T E : Type} (cells : Grid T) (dirty : Grid Bool)
    (effectGrid : Grid (List E)) (rect : Rect) (q : ℤ × ℤ) :
    (q ∈ (renderDirty cells dirty effectGrid rect).1 ↔
      rect.mem q.1 q.2 ∧ dirty.get q.1 q.2 = some true) ∧
    ((renderDirty cells dirty effectGrid rect).2.get q.1 q.2 =
      if rect.mem q.1 q.2 ∧ dirty.get q.1 q.2 = some true then some false
      else dirty.get q.1 q.2) := by
  obtain ⟨hm, hd⟩ := renderDirtyGo_spec (rectCoords rect) (rectCoords_nodup rect) [] dirty q
  constructor
  · rw [renderDirty, hm]
    rw [mem_rectCoords_iff]
    simp
  · rw [renderDirty, hd]
    exact if_congr (by rw [mem_rectCoords_iff]) rfl rfl

/-- **C6** (Reblit resize).  For a new grid constructed over `rect2` from an
old grid over `rect1` plus a fallback generator, `get` at every coordinate
of `rect2 ∩ rect1` returns the old grid's value there, and at every
coordinate of `rect2 \ rect1` returns the fallback for that coordinate.
(The constant-fallback overload is the constant generator.) -/
theorem C6_reblit_resize {T : Type} (rect2 : Rect) (old : Grid T)
    (fallback : ℤ → ℤ → T) (x y : ℤ) (h2 : rect2.mem x y) :
    (old.rect.mem x y → (Grid.blit rect2 old fallback).get x y = old.get x y) ∧
    (¬ old.rect.mem x y → (Grid.blit rect2 old fallback).get x y = some (fallback x y)) := by
  constructor
  · intro h1
    rw [Grid.rect_mem_iff] at h1
    rw [Grid.blit, Grid.get_ofFn _ _ _ _ h2]
    have hs := Grid.isSome_get_of_mem old x y h1
    obtain ⟨v, hv⟩ := Option.isSome_iff_exists.mp hs
    rw [hv]
  · intro h1
    rw [Grid.rect_mem_iff] at h1
    rw [Grid.blit, Grid.get_ofFn _ _ _ _ h2]
    rw [Grid.get_eq_none_of_not_mem old x y h1]

/-- Witness for C6 at a concrete input: old grid over `{0,0,1,1}` filled
with `5`, new rect `{0,0,2,1}`; the overlapping cell keeps the old value
and the newly exposed cell receives the fallback. -/
theorem C6_reblit_resize_witness :
    ((Grid.blit ⟨0, 0, 2, 1⟩ (Grid.ofFill ⟨0, 0, 1, 1⟩ (5 : ℤ)) (fun x _ => x + 40)).get 0 0
       = (Grid.ofFill ⟨0, 0, 1, 1⟩ (5 : ℤ)).get 0 0) ∧
    ((Grid.blit ⟨0, 0, 2, 1⟩ (Grid.ofFill ⟨0, 0, 1, 1⟩ (5 : ℤ)) (fun x _ => x + 40)).get 1 0
       = some 41) := by
  constructor
  · exact (C6_reblit_resize ⟨0, 0, 2, 1⟩ (Grid.ofFill ⟨0, 0, 1, 1⟩ (5 : ℤ))
      (fun x _ => x + 40) 0 0 (by decide)).1 (by decide)
  · have := (C6_reblit_resize ⟨0, 0, 2, 1⟩ (Grid.ofFill ⟨0, 0, 1, 1⟩ (5 : ℤ))
      (fun x _ => x + 40) 1 0 (by decide)).2 (by decide)
    rw [this]
    norm_num

/-- **C9** (code bug).  Parsing `"#ffffff"` and converting back to a
display string yields `rgb(NaN, NaN, NaN)` — not the string for opaque
white — because the six-digit path of `colorFromHex` calls
`Number.parseInt` without radix 16, so `parseInt("ff")` is `NaN`.  The
result is independent of the `Math.pow` implementations. -/
theorem C9_hex_white_renders_nan (pow pow2 : ℚ → ℚ) :
    colorToString pow2 (colorFromHex pow ("#ffffff".data)) = ColorStr.rgb none none none ∧
    colorToString pow2 (colorFromHex pow ("#ffffff".data))
      ≠ ColorStr.rgb (some 255) (some 255) (some 255) := by
  have h : colorToString pow2 (colorFromHex pow ("#ffffff".data))
      = ColorStr.rgb none none none := rfl
  refine ⟨h, ?_⟩
  rw [h]
  decide

/-- **C10, counterexample**.  For the 3-channel color `[0, 0, 0]`,
`mixColor(c, c, 0)` is the 4-element array `[0, 0, 0, 1]`, which is not
equal to the 3-element `c`; the claim `mixColor(c, c, amount) == c` for
every 3- or 4-channel color is therefore false. -/
theorem C10_counterexample :
    mixColor ⟨some 0, some 0, some 0, none⟩ ⟨some 0, some 0, some 0, none⟩ 0
      ≠ ⟨some 0, some 0, some 0, none⟩ := by
  intro h
  have ha := congrArg JsColor.a h
  simp only [mixColor] at ha
  split at ha <;> simp at ha

/-- **C10, amended**.  Mixing a color with itself: for every 4-channel
color the result equals the color exactly (in exact rational arithmetic);
for every 3-channel color the result is the 4-channel color with the same
`r,g,b` and the default alpha `1` made explicit — equal to the input as a
color but not as a tuple. -/
theorem C10_mix_self (r g b α t : ℚ) :
    mixColor ⟨some r, some g, some b, some (some α)⟩
      ⟨some r, some g, some b, some (some α)⟩ t = ⟨some r, some g, some b, some (some α)⟩ ∧
    mixColor ⟨some r, some g, some b, none⟩
      ⟨some r, some g, some b, none⟩ t = ⟨some r, some g, some b, some (some 1)⟩ := by
  constructor
  · by_cases hα : α = 0
    · subst hα
      simp only [mixColor, jsTruthy, jsAdd, jsMul, Option.getD]
      rw [if_neg (by norm_num), if_neg (by norm_num)]
      simp only [JsColor.mk.injEq, Option.some.injEq]
      refine ⟨by ring, by ring, by ring, by ring⟩
    · simp only [mixColor, jsTruthy, jsAdd, jsMul, Option.getD]
      rw [if_pos (by simpa using hα)]
      simp only [JsColor.mk.injEq, Option.some.injEq, true_and]
      ring
  · simp only [mixColor, jsTruthy, jsAdd, jsMul, Option.getD]
    rw [if_neg (by norm_num [EPSILON]), if_neg (by norm_num [EPSILON])]
    simp only [JsColor.mk.injEq, Option.some.injEq]
    refine ⟨by ring, by ring, by ring, by ring⟩

/-- **C8, counterexample**.  A resource whose line 4 holds seven
colon-separated numeric metrics is *rejected* by the constructor, refuting
the claim that 7 metrics are accepted. -/
theorem C8_counterexample :
    (metricsOf "\n\n\n8:8:7:7:1:1:8".data).length = 7 ∧
    (metricsOf "\n\n\n8:8:7:7:1:1:8".data).all (fun x => (jsToNumber x).isSome) = true ∧
    exceptOk (pixelFontInit "\n\n\n8:8:7:7:1:1:8".data PixelFontHeightMode.height) = false := by
  refine ⟨by decide, by decide, by decide⟩

/-- **C8, amended**.  The constructor succeeds exactly when line 4 splits
into exactly 8 fields each coercible to a number; in particular a 7-metric
resource is rejected and — second conjunct — a resource with 8 numeric
metrics and a glyph line with a non-numeric codepoint (`"xyz:AA"`) is
accepted, because the glyph-line `Number.isNaN(lhs)` check tests a string
and never fires. -/
theorem C8_font_metrics_check (pfs : List Char) (hm : PixelFontHeightMode) :
    exceptOk (pixelFontInit pfs hm)
      = ((metricsOf pfs).length == 8 && (metricsOf pfs).all fun x => (jsToNumber x).isSome) ∧
    exceptOk (pixelFontInit "\n\n\n8:8:7:7:1:1:8:0\nxyz:AA".data hm) = true := by
  constructor
  · unfold pixelFontInit
    rcases hE : ((metricsOf pfs).length == 8) with _ | _ <;>
      rcases hA : ((metricsOf pfs).all fun x => (jsToNumber x).isSome) with _ | _ <;>
        simp [bne, hE, hA, exceptOk]
  · cases hm <;> decide

end AsciiCell
